import Mathlib

/-!
Shallow embedding of `src/main.rs` of paperview-rs: the visual selector
(`choose_visual`), the compositor probe (`composite_manager_running`) and the
bitmap-directory listing (`read_bitmap_files`), together with proofs of the
specified properties.

Server replies are modelled as data carried by a connection record; machine
integers (`u8`, `u32`) are modelled as `Nat` (no arithmetic is performed on
them, only equality comparisons, so overflow is irrelevant); fallible
protocol round-trips are modelled with `Except`; a Rust index panic is a
distinguished `RunResult.panicked` outcome.
-/

/-- Protocol-level error carried by a failed reply (`ReplyError` in the source). -/
structure XError where
  code : Nat
deriving DecidableEq, Repr

/-- Outcome of running a fallible Rust function: normal return, propagated
error (`?` operator), or panic (out-of-bounds slice index). -/
inductive RunResult (α : Type) where
  | ok : α → RunResult α
  | err : XError → RunResult α
  | panicked : RunResult α
deriving DecidableEq, Repr

/-- `x11rb::NONE`, the null X identifier. -/
def NONE : Nat := 0

/-- The render extension's `PictType` (only `DIRECT` and `INDEXED` exist). -/
inductive PictType where
  | INDEXED
  | DIRECT
deriving DecidableEq, Repr

/-- `render::Directformat`: channel shifts and masks of a direct picture format. -/
structure Directformat where
  red_shift : Nat
  red_mask : Nat
  green_shift : Nat
  green_mask : Nat
  blue_shift : Nat
  blue_mask : Nat
  alpha_shift : Nat
  alpha_mask : Nat
deriving DecidableEq, Repr

/-- `render::Pictforminfo`: one advertised picture format. -/
structure Pictforminfo where
  id : Nat
  type_ : PictType
  depth : Nat
  direct : Directformat
deriving DecidableEq, Repr

/-- `render::Pictvisual`: associates a visual id with a picture-format id. -/
structure Pictvisual where
  visual : Nat
  format : Nat
deriving DecidableEq, Repr

/-- `render::Pictdepth`: the visuals advertised at one color depth. -/
structure Pictdepth where
  depth : Nat
  visuals : List Pictvisual
deriving DecidableEq, Repr

/-- `render::Pictscreen`: one screen's catalog of depths and their visuals. -/
structure Pictscreen where
  depths : List Pictdepth
deriving DecidableEq, Repr

/-- Reply of `render_query_pict_formats`: the global format list and the
per-screen visual catalogs. -/
structure QueryPictFormatsReply where
  formats : List Pictforminfo
  screens : List Pictscreen
deriving DecidableEq, Repr

/-- `xproto::Screen`, restricted to the two fields `choose_visual` reads. -/
structure Screen where
  root_depth : Nat
  root_visual : Nat
deriving DecidableEq, Repr

/-- The connection data `choose_visual` consumes: the setup's screen list and
the (fallible) replies to the extension-presence query and the
pict-formats query. `extension_information` is `true` when the reply is
`Some(_)`, i.e. when the RENDER extension is present. -/
structure RenderConn where
  roots : List Screen
  extension_information : Except XError Bool
  render_query_pict_formats : Except XError QueryPictFormatsReply

/-- The visuals of a render screen in iteration order:
`screen.depths.iter().flat_map(|d| &d.visuals)`. -/
def screenVisuals (s : Pictscreen) : List Pictvisual :=
  s.depths.flatMap fun d => d.visuals

/-- First filter closure of the format search (source line 73):
`(info.type_, info.depth) == (PictType::DIRECT, depth)` with `depth = 32`. -/
def filter_direct_depth32 (info : Pictforminfo) : Bool :=
  info.type_ == PictType.DIRECT && info.depth == 32

/-- Second filter closure (source lines 74–77): all four channel masks are
exactly `0xff`. -/
def filter_masks_ff (info : Pictforminfo) : Bool :=
  let d := info.direct
  d.red_mask == 0xff && d.green_mask == 0xff && d.blue_mask == 0xff && d.alpha_mask == 0xff

/-- The `find` closure (source lines 78–81): shifts are `(16, 8, 0, 24)`. -/
def find_shifts_argb (info : Pictforminfo) : Bool :=
  let d := info.direct
  d.red_shift == 16 && d.green_shift == 8 && d.blue_shift == 0 && d.alpha_shift == 24

/-- The format search of `choose_visual` (source lines 70–81): filter to
`(type_, depth) == (DIRECT, 32)`, filter to all-`0xff` masks, then find the
first entry with shifts `(16, 8, 0, 24)`. -/
def find_format (formats : List Pictforminfo) : Option Pictforminfo :=
  ((formats.filter filter_direct_depth32).filter filter_masks_ff).find? find_shifts_argb

/-- An entry passing all three predicates of `find_format` at once. -/
def matchesARGB32 (info : Pictforminfo) : Bool :=
  filter_direct_depth32 info && filter_masks_ff info && find_shifts_argb info

/-- `choose_visual` (source lines 59–95). The screen list is indexed
unconditionally (panic when out of bounds); when the RENDER extension is
present the ARGB32 format is looked up and, if found, the target screen's
visual catalog is searched for a visual referencing it; otherwise the
fallback pair `(root_depth, root_visual)` is returned. -/
def choose_visual (conn : RenderConn) (screen_num : Nat) : RunResult (Nat × Nat) :=
  match conn.roots[screen_num]? with
  | none => .panicked
  | some screen =>
    match conn.extension_information with
    | .error e => .err e
    | .ok has_render =>
      if has_render then
        match conn.render_query_pict_formats with
        | .error e => .err e
        | .ok formats =>
          match find_format formats.formats with
          | some format =>
            match formats.screens[screen_num]? with
            | none => .panicked
            | some ps =>
              match (screenVisuals ps).find? fun v => v.format == format.id with
              | some visual => .ok (format.depth, visual.visual)
              | none => .ok (screen.root_depth, screen.root_visual)
          | none => .ok (screen.root_depth, screen.root_visual)
      else .ok (screen.root_depth, screen.root_visual)

/-- Reply of `intern_atom`. -/
structure InternAtomReply where
  atom : Nat
deriving DecidableEq, Repr

/-- Reply of `get_selection_owner`. -/
structure GetSelectionOwnerReply where
  owner : Nat
deriving DecidableEq, Repr

/-- The connection data `composite_manager_running` consumes: the (fallible)
replies to an `InternAtom` request (arguments: `only_if_exists`, name) and to
a `GetSelectionOwner` request (argument: atom). -/
structure ProbeConn where
  intern_atom : Bool → String → Except XError InternAtomReply
  get_selection_owner : Nat → Except XError GetSelectionOwnerReply

/-- A protocol request issued by the compositor probe, recorded for the
call-count and side-effect properties. -/
inductive Request where
  | internAtom (only_if_exists : Bool) (name : String)
  | getSelectionOwner (atom : Nat)
deriving DecidableEq, Repr

/-- `composite_manager_running` (source lines 98–106), instrumented with the
list of requests it issues, in order. It interns `_NET_WM_CM_S<n>` with
`only_if_exists = false`, queries the owner of the returned atom, and returns
whether that owner differs from `NONE`; each `?` propagates the error. -/
def composite_manager_running (conn : ProbeConn) (screen_num : Nat) :
    RunResult Bool × List Request :=
  let name := "_NET_WM_CM_S" ++ toString screen_num
  match conn.intern_atom false name with
  | .error e => (.err e, [.internAtom false name])
  | .ok reply =>
    let atom := reply.atom
    match conn.get_selection_owner atom with
    | .error e => (.err e, [.internAtom false name, .getSelectionOwner atom])
    | .ok owner => (.ok (owner.owner != NONE),
        [.internAtom false name, .getSelectionOwner atom])

/-- Modelled from the spec: the external display server's state as observable
by the probe — the table of interned atom names (§6 "intern a name to an
atom", X11 `InternAtom` numbering atoms from 1 in creation order) and the
current owner of each selection atom (§6 "get selection owner"). -/
structure ServerState where
  atoms : List String
  owner : Nat → Nat

/-- Modelled from the spec: the external name-interning service (§4.2, §6).
Per the X11 protocol, `InternAtom` with `only_if_exists = false` CREATES the
atom when the name is not yet interned; with `only_if_exists = true` it
returns `NONE` instead. Returns the updated server state and the atom. -/
def internAtomS (st : ServerState) (only_if_exists : Bool) (name : String) :
    ServerState × Nat :=
  if name ∈ st.atoms then (st, (st.atoms.indexOf name) + 1)
  else if only_if_exists then (st, NONE)
  else ({ st with atoms := st.atoms ++ [name] }, st.atoms.length + 1)

/-- Modelled from the spec: the external selection-owner query (§4.2, §6), a
read-only lookup of the current owner of a selection atom. -/
def getSelectionOwnerS (st : ServerState) (atom : Nat) : ServerState × Nat :=
  (st, st.owner atom)

/-- `composite_manager_running` run against the stateful server model:
the same two requests as the source (lines 102–104), threading the server
state through, so that the claim about server-side effects can be stated. -/
def composite_manager_running_S (st : ServerState) (screen_num : Nat) :
    ServerState × Bool :=
  let name := "_NET_WM_CM_S" ++ toString screen_num
  let p1 := internAtomS st false name
  let p2 := getSelectionOwnerS p1.1 p1.2
  (p2.1, p2.2 != NONE)

/-- A filesystem path as inspected by `read_bitmap_files`: whether it names a
regular file (`path.is_file()`) and its extension (`path.extension()`). -/
structure FsPath where
  is_file : Bool
  extension : Option String
deriving DecidableEq, Repr

/-- A directory entry (`fs::DirEntry`), carrying its path. -/
structure DirEntry where
  path : FsPath
deriving DecidableEq, Repr

/-- The `filter_map` closure of `read_bitmap_files` (source lines 118–129):
an unreadable entry is dropped; a readable one contributes its path iff the
path is a regular file with extension equal to `bmp`
(`path.extension().map_or(false, |ext| ext == "bmp")`). -/
def keep_bitmap_entry (entry : Except String DirEntry) : Option FsPath :=
  match entry with
  | .ok entry =>
    let path := entry.path
    if path.is_file && (path.extension.map fun ext => ext == "bmp").getD false then
      some path
    else
      none
  | .error _ => none

/-- `read_bitmap_files` (source lines 108–133). The input is the outcome of
`fs::read_dir`: either an error (with its display string) or the list of
entries, each itself fallible. The result is the collected list of paths
together with the lines printed to stderr (the error log). On a failed
directory open the failure is logged and the empty list returned; otherwise
the entries are filtered through `keep_bitmap_entry`. -/
def read_bitmap_files (dir : Except String (List (Except String DirEntry))) :
    List FsPath × List String :=
  match dir with
  | .error e => ([], ["Err reading directory: " ++ e])
  | .ok entries => (entries.filterMap keep_bitmap_entry, [])

theorem find?_eq_some_of_unique {α : Type} {l : List α} {p : α → Bool} {a : α}
    (ha : a ∈ l) (hpa : p a = true) (huniq : ∀ b ∈ l, p b = true → b = a) :
    l.find? p = some a := by
  induction l with
  | nil => cases ha
  | cons hd tl ih =>
    by_cases hp : p hd = true
    · have hda : hd = a := huniq hd (List.mem_cons_self hd tl) hp
      rw [List.find?_cons_of_pos _ hp, hda]
    · have hpb : p hd = false := Bool.eq_false_iff.mpr hp
      have hda : hd ≠ a := fun h => hp (h ▸ hpa)
      have ha' : a ∈ tl := by
        rcases List.mem_cons.mp ha with h | h
        · exact absurd h.symm hda
        · exact h
      rw [List.find?_cons_of_neg _ hp]
      exact ih ha' fun b hb => huniq b (List.mem_cons_of_mem hd hb)

theorem matchesARGB32_split {info : Pictforminfo} (h : matchesARGB32 info = true) :
    filter_direct_depth32 info = true ∧ filter_masks_ff info = true ∧
      find_shifts_argb info = true := by
  simp only [matchesARGB32, Bool.and_eq_true] at h
  exact ⟨h.1.1, h.1.2, h.2⟩

theorem find_format_eq_some {formats : List Pictforminfo} {F : Pictforminfo}
    (hmem : F ∈ formats) (hm : matchesARGB32 F = true)
    (huniq : ∀ G ∈ formats, matchesARGB32 G = true → G = F) :
    find_format formats = some F := by
  obtain ⟨h1, h2, h3⟩ := matchesARGB32_split hm
  apply find?_eq_some_of_unique
  · exact List.mem_filter.mpr ⟨List.mem_filter.mpr ⟨hmem, h1⟩, h2⟩
  · exact h3
  · intro G hG hpG
    have hG2 := List.mem_filter.mp hG
    have hG1 := List.mem_filter.mp hG2.1
    exact huniq G hG1.1 (by simp [matchesARGB32, hG1.2, hG2.2, hpG])

theorem depth_of_matchesARGB32 {F : Pictforminfo} (hm : matchesARGB32 F = true) :
    F.depth = 32 := by
  have h1 := (matchesARGB32_split hm).1
  simp only [filter_direct_depth32, Bool.and_eq_true, beq_iff_eq] at h1
  exact h1.2

/-- C1: if the RENDER extension is present, the format list contains exactly
one entry matching the ARGB32 pattern (type Direct, depth 32, all four masks
`0xff`, shifts `(16, 8, 0, 24)`) — every other entry being non-matching — and
the target screen's visual catalog has a first visual referencing that
entry's id, then `choose_visual` returns `(32, that visual's id)`. -/
theorem choose_visual_argb32_match (roots : List Screen) (n : Nat)
    (reply : QueryPictFormatsReply) (F : Pictforminfo) (ps : Pictscreen)
    (v : Pictvisual)
    (hn : n < roots.length)
    (hps : reply.screens[n]? = some ps)
    (hmem : F ∈ reply.formats) (hm : matchesARGB32 F = true)
    (huniq : ∀ G ∈ reply.formats, matchesARGB32 G = true → G = F)
    (hv : (screenVisuals ps).find? (fun w => w.format == F.id) = some v) :
    choose_visual ⟨roots, .ok true, .ok reply⟩ n = .ok (32, v.visual) := by
  have hroot : roots[n]? = some roots[n] := List.getElem?_eq_getElem hn
  have hf : find_format reply.formats = some F := find_format_eq_some hmem hm huniq
  have hdepth : F.depth = 32 := depth_of_matchesARGB32 hm
  simp only [choose_visual, hroot, hf, hps, hv, if_pos, hdepth]

/-- The ARGB32 format of the spec's C1 scenario (id `F1 = 5`). -/
def c1F : Pictforminfo := ⟨5, .DIRECT, 32, ⟨16, 0xff, 8, 0xff, 0, 0xff, 24, 0xff⟩⟩

/-- The reply of the spec's C1 scenario: one format, one screen whose only
visual (`V1 = 7`) references `F1 = 5`. -/
def c1Reply : QueryPictFormatsReply := ⟨[c1F], [⟨[⟨32, [⟨7, 5⟩]⟩]⟩]⟩

theorem choose_visual_argb32_match_witness :
    choose_visual ⟨[⟨24, 99⟩], .ok true, .ok c1Reply⟩ 0 = .ok (32, 7) :=
  choose_visual_argb32_match [⟨24, 99⟩] 0 c1Reply c1F ⟨[⟨32, [⟨7, 5⟩]⟩]⟩ ⟨7, 5⟩
    (by decide) (by decide) (by decide) (by decide) (by decide) (by decide)

/-- C3: when the RENDER extension is absent (`extension_information` replies
`None`), `choose_visual` returns exactly `(root_depth, root_visual)` of the
target screen, whatever the pict-formats reply would have been (it is never
consulted). -/
theorem choose_visual_no_render_fallback (roots : List Screen) (n : Nat)
    (screen : Screen) (q : Except XError QueryPictFormatsReply)
    (hroot : roots[n]? = some screen) :
    choose_visual ⟨roots, .ok false, q⟩ n =
      .ok (screen.root_depth, screen.root_visual) := by
  simp [choose_visual, hroot]

theorem choose_visual_no_render_fallback_witness :
    choose_visual ⟨[⟨24, 99⟩], .ok false, .ok ⟨[], []⟩⟩ 0 = .ok (24, 99) :=
  choose_visual_no_render_fallback [⟨24, 99⟩] 0 ⟨24, 99⟩ (.ok ⟨[], []⟩) rfl

/-- C4: when the RENDER extension is present but every format entry matching
the ARGB32 mask-and-shift pattern (in particular: none at all) has no visual
referencing its id in the target screen's catalog, `choose_visual` returns
the fallback pair `(root_depth, root_visual)`. -/
theorem choose_visual_no_match_fallback (roots : List Screen) (n : Nat)
    (screen : Screen) (reply : QueryPictFormatsReply) (ps : Pictscreen)
    (hroot : roots[n]? = some screen)
    (hps : reply.screens[n]? = some ps)
    (hnone : ∀ F ∈ reply.formats, matchesARGB32 F = true →
      ∀ w ∈ screenVisuals ps, w.format ≠ F.id) :
    choose_visual ⟨roots, .ok true, .ok reply⟩ n =
      .ok (screen.root_depth, screen.root_visual) := by
  cases hf : find_format reply.formats with
  | none => simp [choose_visual, hroot, hf]
  | some F =>
    have hf' : ((reply.formats.filter filter_direct_depth32).filter
        filter_masks_ff).find? find_shifts_argb = some F := hf
    have h3 : find_shifts_argb F = true := List.find?_some hf'
    have h12 := List.mem_filter.mp (List.mem_of_find?_eq_some hf')
    have h1 := List.mem_filter.mp h12.1
    have hF : matchesARGB32 F = true := by simp [matchesARGB32, h1.2, h12.2, h3]
    have hvnone : (screenVisuals ps).find? (fun w => w.format == F.id) = none :=
      List.find?_eq_none.mpr fun w hw => by simp [hnone F h1.1 hF w hw]
    simp [choose_visual, hroot, hf, hps, hvnone]

/-- The C4 scenario format: alpha mask `0x00` instead of `0xff` (id `F2 = 6`). -/
def c4F : Pictforminfo := ⟨6, .DIRECT, 32, ⟨16, 0xff, 8, 0xff, 0, 0xff, 24, 0x00⟩⟩

theorem choose_visual_no_match_fallback_witness :
    choose_visual ⟨[⟨24, 99⟩], .ok true, .ok ⟨[c4F], [⟨[⟨32, [⟨7, 6⟩]⟩]⟩]⟩⟩ 0 =
      .ok (24, 99) :=
  choose_visual_no_match_fallback [⟨24, 99⟩] 0 ⟨24, 99⟩ ⟨[c4F], [⟨[⟨32, [⟨7, 6⟩]⟩]⟩]⟩
    ⟨[⟨32, [⟨7, 6⟩]⟩]⟩ (by decide) (by decide) (by decide)

theorem find_format_some_matches {formats : List Pictforminfo} {F : Pictforminfo}
    (hf : find_format formats = some F) : F ∈ formats ∧ matchesARGB32 F = true := by
  have hf' : ((formats.filter filter_direct_depth32).filter
      filter_masks_ff).find? find_shifts_argb = some F := hf
  have h3 : find_shifts_argb F = true := List.find?_some hf'
  have h12 := List.mem_filter.mp (List.mem_of_find?_eq_some hf')
  have h1 := List.mem_filter.mp h12.1
  exact ⟨h1.1, by simp [matchesARGB32, h1.2, h12.2, h3]⟩

/-- The ARGB32 format used in the C2 counterexample (id 5). -/
def c2F : Pictforminfo := ⟨5, .DIRECT, 32, ⟨16, 0xff, 8, 0xff, 0, 0xff, 24, 0xff⟩⟩

/-- Connection with two screens where the only visual referencing the
ARGB32 format (visual id 7) is advertised for screen 1, while the target
screen is screen 0 (root depth 24, root visual 99). -/
def c2Conn : RenderConn :=
  ⟨[⟨24, 99⟩, ⟨24, 98⟩], .ok true, .ok ⟨[c2F], [⟨[]⟩, ⟨[⟨32, [⟨7, 5⟩]⟩]⟩]⟩⟩

theorem choose_visual_other_screen_cex :
    choose_visual c2Conn 0 = .ok (24, 99) ∧ choose_visual c2Conn 0 ≠ .ok (32, 7) := by
  constructor
  · decide
  · decide

/-- C2 (amended): after a candidate format is found, `choose_visual` searches
only the TARGET screen's visual catalog: two pict-format replies that agree
on the format list and on the target screen's catalog entry yield the same
result, no matter what the other screens' catalogs contain. -/
theorem choose_visual_target_screen_only (roots : List Screen) (n : Nat)
    (r r' : QueryPictFormatsReply)
    (hf : r.formats = r'.formats) (hs : r.screens[n]? = r'.screens[n]?) :
    choose_visual ⟨roots, .ok true, .ok r⟩ n =
      choose_visual ⟨roots, .ok true, .ok r'⟩ n := by
  cases hroot : roots[n]? with
  | none => simp [choose_visual, hroot]
  | some screen => simp only [choose_visual, hroot, hf, hs]

theorem choose_visual_target_screen_only_witness :
    choose_visual ⟨[⟨24, 99⟩, ⟨24, 98⟩], .ok true,
        .ok ⟨[c2F], [⟨[]⟩, ⟨[⟨32, [⟨7, 5⟩]⟩]⟩]⟩⟩ 0 =
      choose_visual ⟨[⟨24, 99⟩, ⟨24, 98⟩], .ok true, .ok ⟨[c2F], [⟨[]⟩, ⟨[]⟩]⟩⟩ 0 :=
  choose_visual_target_screen_only [⟨24, 99⟩, ⟨24, 98⟩] 0
    ⟨[c2F], [⟨[]⟩, ⟨[⟨32, [⟨7, 5⟩]⟩]⟩]⟩ ⟨[c2F], [⟨[]⟩, ⟨[]⟩]⟩ rfl (by decide)

/-- A connection whose target screen advertises root depth 0 and root
visual `NONE`; the RENDER extension is absent. -/
def c6Conn : RenderConn := ⟨[⟨0, 0⟩], .ok false, .ok ⟨[], []⟩⟩

theorem choose_visual_depth_zero_cex :
    choose_visual c6Conn 0 = .ok (0, NONE) := by decide

/-- C6 (amended): any successful result of `choose_visual` has depth 32 (the
matched format's depth) or the target screen's root depth; and provided the
server data is well-formed — root depth nonzero, root visual and every
advertised visual id different from `NONE` — no result has depth 0 or the
null visual id. -/
theorem choose_visual_result_invariant (conn : RenderConn) (n : Nat)
    (screen : Screen) (d v : Nat)
    (hroot : conn.roots[n]? = some screen)
    (hok : choose_visual conn n = .ok (d, v)) :
    (d = 32 ∨ d = screen.root_depth) ∧
    (screen.root_depth ≠ 0 → screen.root_visual ≠ NONE →
      (∀ reply, conn.render_query_pict_formats = .ok reply →
        ∀ ps ∈ reply.screens, ∀ pd ∈ ps.depths, ∀ w ∈ pd.visuals, w.visual ≠ NONE) →
      d ≠ 0 ∧ v ≠ NONE) := by
  cases hext : conn.extension_information with
  | error e => simp [choose_visual, hroot, hext] at hok
  | ok has_render =>
    cases has_render with
    | false =>
      simp [choose_visual, hroot, hext] at hok
      obtain ⟨rfl, rfl⟩ := hok
      exact ⟨Or.inr rfl, fun hd0 hv0 _ => ⟨hd0, hv0⟩⟩
    | true =>
      cases hq : conn.render_query_pict_formats with
      | error e => simp [choose_visual, hroot, hext, hq] at hok
      | ok reply =>
        cases hff : find_format reply.formats with
        | none =>
          simp [choose_visual, hroot, hext, hq, hff] at hok
          obtain ⟨rfl, rfl⟩ := hok
          exact ⟨Or.inr rfl, fun hd0 hv0 _ => ⟨hd0, hv0⟩⟩
        | some F =>
          cases hps : reply.screens[n]? with
          | none => simp [choose_visual, hroot, hext, hq, hff, hps] at hok
          | some ps =>
            cases hfind : (screenVisuals ps).find? fun w => w.format == F.id with
            | none =>
              simp [choose_visual, hroot, hext, hq, hff, hps, hfind] at hok
              obtain ⟨rfl, rfl⟩ := hok
              exact ⟨Or.inr rfl, fun hd0 hv0 _ => ⟨hd0, hv0⟩⟩
            | some w =>
              simp [choose_visual, hroot, hext, hq, hff, hps, hfind] at hok
              obtain ⟨rfl, rfl⟩ := hok
              have hdepth : F.depth = 32 :=
                depth_of_matchesARGB32 (find_format_some_matches hff).2
              have hwmem : w ∈ screenVisuals ps := List.mem_of_find?_eq_some hfind
              obtain ⟨pd, hpd, hw⟩ := List.mem_flatMap.mp hwmem
              have hpsmem : ps ∈ reply.screens := List.getElem?_mem hps
              refine ⟨Or.inl hdepth, fun _ _ hvis => ⟨by simp [hdepth], ?_⟩⟩
              exact hvis reply rfl ps hpsmem pd hpd w hw

theorem choose_visual_result_invariant_witness :
    ((24 : Nat) = 32 ∨ (24 : Nat) = 24) ∧ ((24 : Nat) ≠ 0 ∧ (99 : Nat) ≠ NONE) :=
  have h := choose_visual_result_invariant ⟨[⟨24, 99⟩], .ok false, .ok ⟨[], []⟩⟩ 0
    ⟨24, 99⟩ 24 99 rfl (by decide)
  ⟨h.1, h.2 (by decide) (by decide) (fun reply hq => by
    injection hq with hq
    subst hq
    intro ps hps
    simp at hps)⟩

/-- C10: `choose_visual` panics when `screen_num` is out of bounds of the
setup's screen list; and also when `screen_num` is in bounds there but the
RENDER extension is present, the pict-formats reply arrived and a candidate
format matched while `screen_num` is out of bounds of the reply's per-screen
catalog — in neither case is an error or the fallback pair returned. -/
theorem choose_visual_index_panics (conn : RenderConn) (n : Nat) :
    (conn.roots.length ≤ n → choose_visual conn n = .panicked) ∧
    (∀ reply F, n < conn.roots.length →
      conn.extension_information = .ok true →
      conn.render_query_pict_formats = .ok reply →
      find_format reply.formats = some F →
      reply.screens.length ≤ n →
      choose_visual conn n = .panicked) := by
  constructor
  · intro h
    have hroot : conn.roots[n]? = none := List.getElem?_eq_none_iff.mpr h
    simp [choose_visual, hroot]
  · intro reply F hn hext hq hff hlen
    have hroot : conn.roots[n]? = some conn.roots[n] := List.getElem?_eq_getElem hn
    have hps : reply.screens[n]? = none := List.getElem?_eq_none_iff.mpr hlen
    simp [choose_visual, hroot, hext, hq, hff, hps]

/-- The ARGB32 format used in the C10 witness (id 5). -/
def c10F : Pictforminfo := ⟨5, .DIRECT, 32, ⟨16, 0xff, 8, 0xff, 0, 0xff, 24, 0xff⟩⟩

theorem choose_visual_index_panics_witness :
    choose_visual ⟨[], .ok false, .ok ⟨[], []⟩⟩ 0 = .panicked ∧
    choose_visual ⟨[⟨24, 99⟩], .ok true, .ok ⟨[c10F], []⟩⟩ 0 = .panicked :=
  ⟨(choose_visual_index_panics ⟨[], .ok false, .ok ⟨[], []⟩⟩ 0).1 (by decide),
   (choose_visual_index_panics ⟨[⟨24, 99⟩], .ok true, .ok ⟨[c10F], []⟩⟩ 0).2
     ⟨[c10F], []⟩ c10F (by decide) rfl rfl (by decide) (by decide)⟩

/-- C5: when both round-trips succeed, `composite_manager_running` issues
exactly one intern request, for the name `_NET_WM_CM_S<n>` (`n` rendered in
decimal by `toString`), followed by exactly one owner query for the returned
atom, and answers `true` iff that owner differs from the null identifier
`NONE` (`false` exactly when the selection has no owner). -/
theorem composite_manager_running_ok_spec (conn : ProbeConn) (n a own : Nat)
    (h1 : conn.intern_atom false ("_NET_WM_CM_S" ++ toString n) = .ok ⟨a⟩)
    (h2 : conn.get_selection_owner a = .ok ⟨own⟩) :
    (composite_manager_running conn n).2 =
      [.internAtom false ("_NET_WM_CM_S" ++ toString n), .getSelectionOwner a] ∧
    ((composite_manager_running conn n).1 = .ok true ↔ own ≠ NONE) ∧
    ((composite_manager_running conn n).1 = .ok false ↔ own = NONE) := by
  refine ⟨?_, ?_, ?_⟩ <;>
    simp [composite_manager_running, h1, h2, NONE, bne_iff_ne]

def c5Conn : ProbeConn := ⟨fun _ _ => .ok ⟨42⟩, fun _ => .ok ⟨0⟩⟩

theorem composite_manager_running_ok_spec_witness :
    (composite_manager_running c5Conn 0).2 =
      [.internAtom false ("_NET_WM_CM_S" ++ toString 0), .getSelectionOwner 42] ∧
    ((composite_manager_running c5Conn 0).1 = .ok true ↔ (0 : Nat) ≠ NONE) ∧
    ((composite_manager_running c5Conn 0).1 = .ok false ↔ (0 : Nat) = NONE) :=
  composite_manager_running_ok_spec c5Conn 0 42 0 rfl rfl

/-- C7: hard failures are propagated unmodified: a failed intern makes the
call return that very error (after the single intern request), and a failed
owner query likewise (after both requests); neither failure is ever turned
into the answer `false`. -/
theorem composite_manager_running_error_propagation (conn : ProbeConn) (n : Nat)
    (e : XError) :
    (conn.intern_atom false ("_NET_WM_CM_S" ++ toString n) = .error e →
      composite_manager_running conn n =
        (.err e, [.internAtom false ("_NET_WM_CM_S" ++ toString n)])) ∧
    (∀ a, conn.intern_atom false ("_NET_WM_CM_S" ++ toString n) = .ok ⟨a⟩ →
      conn.get_selection_owner a = .error e →
      composite_manager_running conn n =
        (.err e, [.internAtom false ("_NET_WM_CM_S" ++ toString n),
                  .getSelectionOwner a])) := by
  constructor
  · intro h
    simp [composite_manager_running, h]
  · intro a h1 h2
    simp [composite_manager_running, h1, h2]

def c7ConnA : ProbeConn := ⟨fun _ _ => .error ⟨7⟩, fun _ => .ok ⟨0⟩⟩

def c7ConnB : ProbeConn := ⟨fun _ _ => .ok ⟨42⟩, fun _ => .error ⟨9⟩⟩

theorem composite_manager_running_error_propagation_witness :
    composite_manager_running c7ConnA 3 =
      (.err ⟨7⟩, [.internAtom false ("_NET_WM_CM_S" ++ toString 3)]) ∧
    composite_manager_running c7ConnB 3 =
      (.err ⟨9⟩, [.internAtom false ("_NET_WM_CM_S" ++ toString 3),
                  .getSelectionOwner 42]) :=
  ⟨(composite_manager_running_error_propagation c7ConnA 3 ⟨7⟩).1 rfl,
   (composite_manager_running_error_propagation c7ConnB 3 ⟨9⟩).2 42 rfl rfl⟩

/-- The C8 counterexample's initial server state: no interned atoms, no
selection owners. -/
def c8St : ServerState := ⟨[], fun _ => 0⟩

/-- C8 counterexample: the probe interns with `only_if_exists = false`, so on
a server where `_NET_WM_CM_S0` is not yet interned the call CREATES that
atom — the atom table observable by later queries changes from `[]` to
`["_NET_WM_CM_S0"]`. -/
theorem composite_manager_creates_atom_cex :
    c8St.atoms = [] ∧
      (composite_manager_running_S c8St 0).1.atoms = ["_NET_WM_CM_S0"] := by
  constructor
  · rfl
  · decide

/-- C8 (amended): the owner query is read-only, and the only server-side
effect of a `composite_manager_running` call is its intern request, which
(because the source passes `only_if_exists = false`) appends `_NET_WM_CM_S<n>`
to the server's atom table exactly when that name was not interned yet; the
selection-owner table is never modified. -/
theorem composite_manager_running_server_effect (st : ServerState) (n : Nat) :
    ((composite_manager_running_S st n).1.atoms =
      if ("_NET_WM_CM_S" ++ toString n) ∈ st.atoms then st.atoms
      else st.atoms ++ ["_NET_WM_CM_S" ++ toString n]) ∧
    (composite_manager_running_S st n).1.owner = st.owner := by
  unfold composite_manager_running_S internAtomS getSelectionOwnerS
  by_cases h : ("_NET_WM_CM_S" ++ toString n) ∈ st.atoms
  · simp [h]
  · simp [h]

theorem extension_is_bmp (p : FsPath) :
    (p.extension.map fun ext => ext == "bmp").getD false =
      (p.extension == some "bmp") := by
  cases p.extension <;> rfl

theorem keep_bitmap_entry_ok (entry : DirEntry) :
    keep_bitmap_entry (.ok entry) =
      if entry.path.is_file && entry.path.extension == some "bmp" then
        some entry.path
      else none := by
  simp only [keep_bitmap_entry, extension_is_bmp]

theorem filterMap_keep_bitmap (l : List DirEntry) :
    (l.map Except.ok).filterMap keep_bitmap_entry =
      (l.map DirEntry.path).filter fun p => p.is_file && p.extension == some "bmp" := by
  induction l with
  | nil => rfl
  | cons hd tl ih =>
    simp only [List.map_cons, List.filterMap_cons, keep_bitmap_entry_ok,
      List.filter_cons, ih]
    by_cases h : (hd.path.is_file && hd.path.extension == some "bmp") = true
    · simp [h]
    · simp [h]

/-- C9: when opening the directory fails, `read_bitmap_files` logs the
failure and returns the empty list instead of propagating an error; when the
directory opens (and its entries are readable) it returns — with nothing
logged — exactly those entries' paths that are regular files with the
recognized bitmap extension `bmp`. -/
theorem read_bitmap_files_spec (e : String) (entries : List DirEntry) :
    read_bitmap_files (.error e) = ([], ["Err reading directory: " ++ e]) ∧
    read_bitmap_files (.ok (entries.map Except.ok)) =
      ((entries.map DirEntry.path).filter
        fun p => p.is_file && p.extension == some "bmp", []) :=
  ⟨rfl, by simp only [read_bitmap_files, filterMap_keep_bitmap]⟩
